import Mathlib

/-!
# Verification of the aws-lc-rs elliptic-curve / AEAD core

Shallow embedding of `src/ec.rs`, `src/aead/aes.rs` and `src/aead/quic.rs`.
Byte strings are modelled as `List Nat` (each entry a byte value), machine
integers as `Nat`, and fallible operations return `Except CryptoError`.
Collaborator primitives from the aws-lc-sys bignum/curve library are modelled
from their documented semantics (spec section 4.3): a bignum is a non-negative
integer, its wire form the minimal big-endian byte string.
-/

/-- The two error kinds of the crate's `error` module: `Unspecified` for all
cryptographic failures and `KeyRejected` for key-construction failures. -/
inductive CryptoError
  | unspecified
  | keyRejected
deriving DecidableEq

/-- Little-endian base-256 digit expansion with an explicit fuel argument
(structural recursion on fuel; `fuel = n` always suffices). Empty for zero. -/
def toLEAux : Nat → Nat → List Nat
  | _, 0 => []
  | 0, _ + 1 => []
  | f + 1, n + 1 => ((n + 1) % 256) :: toLEAux f ((n + 1) / 256)

/-- Minimal little-endian base-256 digits of `n`. -/
def toLE (n : Nat) : List Nat :=
  toLEAux n n

/-- Value of a little-endian base-256 digit list. -/
def fromLE (l : List Nat) : Nat :=
  l.foldr (fun b acc => 256 * acc + b) 0

/-- Modelled from the spec: `BN_num_bytes` of the aws-lc-sys collaborator, the
length in bytes of the bignum's minimal big-endian representation. -/
def BN_num_bytes (bignum : Nat) : Nat :=
  (toLE bignum).length

/-- Modelled from the spec: `BN_bn2bin` of the aws-lc-sys collaborator, the
minimal big-endian byte encoding of a non-negative integer (empty for zero). -/
def BN_bn2bin (bignum : Nat) : List Nat :=
  (toLE bignum).reverse

/-- Modelled from the spec: `BN_bin2bn` of the aws-lc-sys collaborator,
interpreting a big-endian byte string as a non-negative integer. -/
def BN_bin2bn (bytes : List Nat) : Nat :=
  bytes.foldl (fun acc b => 256 * acc + b) 0

/-- Embeds `BIGNUM_to_be_bytes` (src/ec.rs lines 347-361): writes the bignum's
big-endian bytes into a buffer of length `buf_len`, failing if `BN_num_bytes`
exceeds the buffer length or if `BN_bn2bin` reports zero bytes written.
Returns the bytes written (the source returns the count and mutates the
buffer). -/
def BIGNUM_to_be_bytes (bignum : Nat) (buf_len : Nat) : Except CryptoError (List Nat) :=
  let bn_bytes := BN_num_bytes bignum
  if bn_bytes > buf_len then
    .error CryptoError.unspecified
  else
    let written := BN_bn2bin bignum
    if written.length = 0 then
      .error CryptoError.unspecified
    else
      .ok written

/-- Embeds `BIGNUM_from_be_bytes` (src/ec.rs lines 363-367). `BN_bin2bn`
fails only on allocation failure, which the embedding does not model. -/
def BIGNUM_from_be_bytes (bytes : List Nat) : Nat :=
  BN_bin2bn bytes

namespace Ec

/-- Embeds `AlgorithmID` of src/ec.rs (lines 90-95). -/
inductive AlgorithmID
  | ECDSA_P256
  | ECDSA_P384
deriving DecidableEq

/-- Embeds `EcdsaSignatureFormat` of src/ec.rs (lines 84-88). -/
inductive EcdsaSignatureFormat
  | ASN1
  | Fixed
deriving DecidableEq

end Ec

/-- Embeds `MAX_ECDSA_FIXED_NUMBER_BYTE_SIZE` (src/ec.rs line 313). -/
def MAX_ECDSA_FIXED_NUMBER_BYTE_SIZE : Nat := 48

/-- Embeds `ecdsa_fixed_number_byte_size` (src/ec.rs lines 315-321). -/
def ecdsa_fixed_number_byte_size : Ec.AlgorithmID → Nat
  | Ec.AlgorithmID.ECDSA_P256 => 32
  | Ec.AlgorithmID.ECDSA_P384 => 48

/-- Overwrite the range of `l` starting at `start` with `xs`, the list form
of `slice[start..start + xs.len()].copy_from_slice(xs)`. -/
def writeRange (l : List Nat) (start : Nat) (xs : List Nat) : List Nat :=
  l.take start ++ xs ++ l.drop (start + xs.length)

/-- Result of `ECDSA_SIG_to_fixed`: a successful byte encoding, an error
return, or a Rust panic (usize subtraction overflow / out-of-range slice
index inside the fill closure). -/
inductive EncodeResult
  | ok (bytes : List Nat)
  | err
  | panics
deriving DecidableEq

/-- Embeds `ECDSA_SIG_to_fixed` (src/ec.rs lines 280-306). The signature
object is its `(r, s)` bignum pair (`ECDSA_SIG_get0_r`/`_s` fail only on a
null pointer, not modelled). Each component is written through
`BIGNUM_to_be_bytes` into a 48-byte buffer; the fill closure then copies
`r_buffer[0..r_bytes]` to `slice[N - r_bytes..N]` and `s_buffer[0..s_bytes]`
to `slice[2N - s_bytes..2N]` of a zero-initialised slice and returns length
`2N`. When `r_bytes > N` the source's `expected_number_size - r_bytes`
underflows and the slice indexing panics, embedded as `EncodeResult.panics`;
the `s` write never underflows since `s_bytes ≤ 48 ≤ 2N`. -/
def ECDSA_SIG_to_fixed (alg_id : Ec.AlgorithmID) (r s : Nat) : EncodeResult :=
  let expected_number_size := ecdsa_fixed_number_byte_size alg_id
  match BIGNUM_to_be_bytes r MAX_ECDSA_FIXED_NUMBER_BYTE_SIZE with
  | .error _ => EncodeResult.err
  | .ok r_bytes =>
    match BIGNUM_to_be_bytes s MAX_ECDSA_FIXED_NUMBER_BYTE_SIZE with
    | .error _ => EncodeResult.err
    | .ok s_bytes =>
      if r_bytes.length ≤ expected_number_size then
        EncodeResult.ok
          (writeRange
            (writeRange (List.replicate (2 * expected_number_size) 0)
              (expected_number_size - r_bytes.length) r_bytes)
            (2 * expected_number_size - s_bytes.length) s_bytes)
      else
        EncodeResult.panics

/-- Embeds `ECDSA_SIG_from_fixed` (src/ec.rs lines 323-344): reject any input
whose length is not `2 * num_size_bytes`, otherwise split and interpret both
halves big-endian (`ECDSA_SIG_new`/`ECDSA_SIG_set0` fail only on allocation,
not modelled). -/
def ECDSA_SIG_from_fixed (alg_id : Ec.AlgorithmID) (signature : List Nat) :
    Except CryptoError (Nat × Nat) :=
  let num_size_bytes := ecdsa_fixed_number_byte_size alg_id
  if signature.length ≠ 2 * num_size_bytes then
    .error CryptoError.unspecified
  else
    let r_bn := BIGNUM_from_be_bytes (signature.take num_size_bytes)
    let s_bn := BIGNUM_from_be_bytes (signature.drop num_size_bytes)
    .ok (r_bn, s_bn)

/-- Composition of fixed-format encode then decode, the round-trip of spec
section 4.4. `none` when either direction fails (or the encoder panics). -/
def fixed_roundtrip (alg_id : Ec.AlgorithmID) (r s : Nat) : Option (Nat × Nat) :=
  match ECDSA_SIG_to_fixed alg_id r s with
  | EncodeResult.ok bytes =>
    match ECDSA_SIG_from_fixed alg_id bytes with
    | .ok p => some p
    | .error _ => none
  | _ => none

/-- The spec's left-zero-padded big-endian field of width `n` (spec section
4.4: "each big-endian, left-zero-padded to `N` bytes"). -/
def padLeft (n : Nat) (l : List Nat) : List Nat :=
  List.replicate (n - l.length) 0 ++ l

/-- Modelled from the spec: the `zeroize` collaborator crate's byte-array
`zeroize` (spec section 4.2: "overwrites every byte of the container with
zero"). -/
def zeroize (bytes : List Nat) : List Nat :=
  bytes.map fun _ => 0

/-- Embeds `Aes128Key` (src/aead/aes.rs line 24): a 16-byte AES key. -/
structure Aes128Key where
  bytes : List Nat
  length_eq : bytes.length = 16

/-- Embeds `Aes256Key` (src/aead/aes.rs line 38): a 32-byte AES key. -/
structure Aes256Key where
  bytes : List Nat
  length_eq : bytes.length = 32

/-- Embeds `impl Drop for Aes128Key` (src/aead/aes.rs lines 32-36): the
destructor body `self.0.zeroize()`, returning the final state of the key
storage. -/
def Aes128Key.drop (k : Aes128Key) : Aes128Key :=
  ⟨zeroize k.bytes, by simpa [zeroize] using k.length_eq⟩

/-- Embeds `impl Drop for Aes256Key` (src/aead/aes.rs lines 47-51). -/
def Aes256Key.drop (k : Aes256Key) : Aes256Key :=
  ⟨zeroize k.bytes, by simpa [zeroize] using k.length_eq⟩

namespace Quic

/-- Modelled from the spec: `super::TAG_LEN` of the aead module (not under
src/), the 16-byte block/tag length of the underlying cipher (spec section 6:
"input is a 16-byte sample (equal to the block/tag length of the underlying
cipher in all three supported algorithms)"). -/
def TAG_LEN : Nat := 16

/-- Embeds `SAMPLE_LEN` (src/aead/quic.rs line 81). -/
def SAMPLE_LEN : Nat := TAG_LEN

/-- Embeds `AlgorithmID` of src/aead/quic.rs (lines 121-127). -/
inductive AlgorithmID
  | AES_128
  | AES_256
  | CHACHA20
deriving DecidableEq

/-- The opaque `KeyInner` cipher state (src/aead/key_inner.rs, an external
collaborator of this core); its content is never inspected here. -/
structure KeyInner where
  data : List Nat

/-- Embeds `Algorithm` of src/aead/quic.rs (lines 87-94): function pointers
for `init` and `new_mask` plus the key length and identity tag. The
`new_mask` field's Rust type `fn(&KeyInner, Sample) -> [u8; 5]` is total with
a 16-byte input and 5-byte output, carried here by subtypes. -/
structure Algorithm where
  init : List Nat → Except CryptoError KeyInner
  new_mask : KeyInner → { l : List Nat // l.length = SAMPLE_LEN } →
    { l : List Nat // l.length = 5 }
  key_len : Nat
  id : AlgorithmID

/-- Embeds `Algorithm::key_len` (src/aead/quic.rs lines 105-109). -/
def Algorithm.key_len_fn (a : Algorithm) : Nat :=
  a.key_len

/-- Embeds `Algorithm::sample_len` (src/aead/quic.rs lines 111-116): returns
the constant `SAMPLE_LEN` for every algorithm. -/
def Algorithm.sample_len (_ : Algorithm) : Nat :=
  SAMPLE_LEN

/-- Embeds `impl PartialEq for Algorithm` (src/aead/quic.rs lines 129-134):
`self.id == other.id`. -/
instance : BEq Algorithm :=
  ⟨fun a b => a.id == b.id⟩

/-- Embeds `HeaderProtectionKey` (src/aead/quic.rs lines 29-32). -/
structure HeaderProtectionKey where
  inner : KeyInner
  algorithm : Algorithm

/-- Embeds `HeaderProtectionKey::new` (src/aead/quic.rs lines 50-58). -/
def HeaderProtectionKey.new (algorithm : Algorithm) (key_bytes : List Nat) :
    Except CryptoError HeaderProtectionKey :=
  match algorithm.init key_bytes with
  | .error e => .error e
  | .ok inner => .ok ⟨inner, algorithm⟩

/-- Embeds `HeaderProtectionKey::new_mask` (src/aead/quic.rs lines 66-71):
`<&[u8; SAMPLE_LEN]>::try_from(sample)` succeeds exactly when the slice
length is `SAMPLE_LEN` (otherwise the `TryFromSliceError` converts to
`Unspecified`), then the algorithm's `new_mask` function is applied. -/
def HeaderProtectionKey.new_mask (k : HeaderProtectionKey) (sample : List Nat) :
    Except CryptoError (List Nat) :=
  if h : sample.length = SAMPLE_LEN then
    .ok (k.algorithm.new_mask k.inner ⟨sample, h⟩).val
  else
    .error CryptoError.unspecified

end Quic

namespace Ec

/-- Embeds `EcdsaVerificationAlgorithm` (src/ec.rs lines 55-62). The digest
algorithm reference is an opaque identifier resolved by the digest
collaborator. -/
structure EcdsaVerificationAlgorithm where
  id : AlgorithmID
  digest : Nat
  bits : Nat
  nid : Int
  sig_format : EcdsaSignatureFormat

/-- The collaborator primitives of the aws-lc-sys library used by `verify`,
modelled as opaque functions: curve groups, points, keys are opaque handles
(`Nat`), a parsed `ECDSA_SIG` is its `(r, s)` pair, the digest function is
total, and `ECDSA_do_verify` returns a C `int` compared against 1. `none`
models a null-pointer / non-1 status return.
`EC_POINT_oct2point` covers `EC_POINT_new` plus the oct2point call of
`EC_POINT_from_bytes`; `EC_KEY_set_public` covers `EC_KEY_new`,
`EC_KEY_set_group` and `EC_KEY_set_public_key` of
`EC_KEY_from_public_point`. -/
structure Collab where
  EC_GROUP_new_by_curve_name : Int → Option Nat
  EC_POINT_oct2point : Nat → List Nat → Option Nat
  EC_KEY_set_public : Nat → Nat → Option Nat
  ECDSA_SIG_from_bytes : List Nat → Option (Nat × Nat)
  digest : Nat → List Nat → List Nat
  ECDSA_do_verify : List Nat → Nat × Nat → Nat → Int

end Ec

/-- Lift a collaborator result, the pattern
`LcPtr::new(...).map_err(|_| Unspecified)?`: a null pointer becomes the
undifferentiated `Unspecified` error. -/
def ofOption {α : Type} : Option α → Except CryptoError α
  | some a => .ok a
  | none => .error CryptoError.unspecified

/-- Embeds `EC_GROUP_from_nid` (src/ec.rs lines 213-217). -/
def EC_GROUP_from_nid (C : Ec.Collab) (nid : Int) : Except CryptoError Nat :=
  ofOption (C.EC_GROUP_new_by_curve_name nid)

/-- Embeds `EC_POINT_from_bytes` (src/ec.rs lines 219-237). -/
def EC_POINT_from_bytes (C : Ec.Collab) (ec_group : Nat) (bytes : List Nat) :
    Except CryptoError Nat :=
  ofOption (C.EC_POINT_oct2point ec_group bytes)

/-- Embeds `EC_KEY_from_public_point` (src/ec.rs lines 177-191). -/
def EC_KEY_from_public_point (C : Ec.Collab) (ec_group ec_point : Nat) :
    Except CryptoError Nat :=
  ofOption (C.EC_KEY_set_public ec_group ec_point)

/-- Embeds `ECDSA_SIG_from_asn1` (src/ec.rs lines 308-311): delegates the
ASN.1 parse to the collaborator's `ECDSA_SIG_from_bytes`. -/
def ECDSA_SIG_from_asn1 (C : Ec.Collab) (signature : List Nat) :
    Except CryptoError (Nat × Nat) :=
  ofOption (C.ECDSA_SIG_from_bytes signature)

/-- The signature-decode match of `verify` (src/ec.rs lines 128-131),
selecting the parser by the algorithm's declared format. -/
def sigDecode (C : Ec.Collab) (alg : Ec.EcdsaVerificationAlgorithm)
    (signature : List Nat) : Except CryptoError (Nat × Nat) :=
  match alg.sig_format with
  | Ec.EcdsaSignatureFormat.ASN1 => ECDSA_SIG_from_asn1 C signature
  | Ec.EcdsaSignatureFormat.Fixed => ECDSA_SIG_from_fixed alg.id signature

/-- Embeds `EcdsaVerificationAlgorithm::verify` (src/ec.rs lines 121-142):
group lookup, public-key point decode, key binding, signature decode per the
declared format, digest of the message, and the raw `ECDSA_do_verify`
primitive whose non-1 return is rejected. Each `?` propagates the failure. -/
def verify (C : Ec.Collab) (alg : Ec.EcdsaVerificationAlgorithm)
    (public_key msg signature : List Nat) : Except CryptoError Unit :=
  match EC_GROUP_from_nid C alg.nid with
  | .error e => .error e
  | .ok ec_group =>
    match EC_POINT_from_bytes C ec_group public_key with
    | .error e => .error e
    | .ok ec_point =>
      match EC_KEY_from_public_point C ec_group ec_point with
      | .error e => .error e
      | .ok ec_key =>
        match sigDecode C alg signature with
        | .error e => .error e
        | .ok ecdsa_sig =>
          let msg_digest := C.digest alg.digest msg
          if C.ECDSA_do_verify msg_digest ecdsa_sig ec_key ≠ 1 then
            .error CryptoError.unspecified
          else
            .ok ()

/-- Test fixture for witnesses: a QUIC algorithm whose mask function takes
the first five sample bytes. -/
def testQuicAlgorithm : Quic.Algorithm where
  init := fun key_bytes =>
    if key_bytes.length = 16 then .ok ⟨key_bytes⟩ else .error CryptoError.unspecified
  new_mask := fun _ sample =>
    ⟨sample.val.take 5, by simp [sample.property, Quic.SAMPLE_LEN, Quic.TAG_LEN]⟩
  key_len := 16
  id := Quic.AlgorithmID.AES_128

/-- Test fixture for witnesses: a constructed header-protection key. -/
def testQuicKey : Quic.HeaderProtectionKey :=
  ⟨⟨List.replicate 16 0⟩, testQuicAlgorithm⟩

theorem fromLE_nil : fromLE [] = 0 :=
  rfl

theorem fromLE_cons (b : Nat) (l : List Nat) : fromLE (b :: l) = 256 * fromLE l + b :=
  rfl

theorem fromLE_toLEAux : ∀ f n : Nat, n ≤ f → fromLE (toLEAux f n) = n := by
  intro f
  induction f with
  | zero =>
    intro n hn
    have hz : n = 0 := by omega
    subst hz
    rfl
  | succ g ih =>
    intro n hn
    match n with
    | 0 => rfl
    | m + 1 =>
      have hdiv : (m + 1) / 256 ≤ g := by
        have := Nat.div_lt_self (Nat.succ_pos m) (by norm_num : 1 < 256)
        omega
      show fromLE (((m + 1) % 256) :: toLEAux g ((m + 1) / 256)) = m + 1
      rw [fromLE_cons, ih _ hdiv]
      omega

theorem fromLE_toLE (n : Nat) : fromLE (toLE n) = n :=
  fromLE_toLEAux n n le_rfl

theorem BN_bin2bn_reverse (l : List Nat) : BN_bin2bn l.reverse = fromLE l := by
  simp [BN_bin2bn, fromLE, List.foldl_reverse]

theorem BN_bin2bn_bn2bin (n : Nat) : BN_bin2bn (BN_bn2bin n) = n := by
  rw [BN_bn2bin, BN_bin2bn_reverse, fromLE_toLE]

theorem BN_num_bytes_eq_zero_iff (n : Nat) : BN_num_bytes n = 0 ↔ n = 0 := by
  constructor
  · intro h
    have h2 : toLE n = [] := List.length_eq_zero.mp h
    have h3 := fromLE_toLE n
    rw [h2] at h3
    simpa [fromLE] using h3.symm
  · intro h
    subst h
    rfl

theorem BN_bn2bin_length (n : Nat) : (BN_bn2bin n).length = BN_num_bytes n := by
  simp [BN_bn2bin, BN_num_bytes]

theorem foldl_be_replicate_zero (k : Nat) :
    List.foldl (fun acc b => 256 * acc + b) 0 (List.replicate k 0) = 0 := by
  induction k with
  | zero => rfl
  | succ m ih => simpa [List.replicate_succ] using ih

theorem BN_bin2bn_replicate_zero (k : Nat) (l : List Nat) :
    BN_bin2bn (List.replicate k 0 ++ l) = BN_bin2bn l := by
  simp [BN_bin2bn, List.foldl_append, foldl_be_replicate_zero]

theorem BIGNUM_to_be_bytes_pos (n buf : Nat) (hn : 0 < n)
    (hle : BN_num_bytes n ≤ buf) : BIGNUM_to_be_bytes n buf = .ok (BN_bn2bin n) := by
  have h1 : ¬ BN_num_bytes n > buf := by omega
  have h2 : ¬ (BN_bn2bin n).length = 0 := by
    intro h
    have := (BN_num_bytes_eq_zero_iff n).mp (by rw [← BN_bn2bin_length]; exact h)
    omega
  simp [BIGNUM_to_be_bytes, h1, h2]

theorem writeRange_append (A B xs : List Nat) (t : Nat) :
    writeRange (A ++ B) (A.length + t) xs = A ++ writeRange B t xs := by
  rw [writeRange, writeRange]
  rw [List.take_append_eq_append_take, List.take_of_length_le (by omega)]
  rw [List.drop_append_eq_append_drop,
    List.drop_eq_nil_of_le (show A.length ≤ A.length + t + xs.length by omega)]
  have e1 : A.length + t - A.length = t := by omega
  have e2 : A.length + t + xs.length - A.length = t + xs.length := by omega
  rw [e1, e2]
  simp [List.append_assoc]

theorem writeRange_replicate (m t : Nat) (xs : List Nat) (h : t + xs.length ≤ m) :
    writeRange (List.replicate m 0) t xs
      = List.replicate t 0 ++ xs ++ List.replicate (m - t - xs.length) 0 := by
  rw [writeRange, List.take_replicate, List.drop_replicate,
    min_eq_left (show t ≤ m by omega)]
  have e1 : m - (t + xs.length) = m - t - xs.length := by omega
  rw [e1]

theorem fill_pad (N : Nat) (rB sB : List Nat) (hr : rB.length ≤ N)
    (hs : sB.length ≤ N) :
    writeRange (writeRange (List.replicate (2 * N) 0) (N - rB.length) rB)
      (2 * N - sB.length) sB = padLeft N rB ++ padLeft N sB := by
  rw [writeRange_replicate (h := by omega)]
  have e1 : 2 * N - (N - rB.length) - rB.length = N := by omega
  rw [e1, List.append_assoc]
  have e2 : 2 * N - sB.length
      = (List.replicate (N - rB.length) 0).length + (rB.length + (N - sB.length)) := by
    simp [List.length_replicate]
    omega
  rw [e2, writeRange_append, writeRange_append,
    writeRange_replicate (h := by omega)]
  have e3 : N - (N - sB.length) - sB.length = 0 := by omega
  rw [e3]
  simp [padLeft, List.append_assoc]

theorem to_fixed_eq_of_pos (alg_id : Ec.AlgorithmID) (r s : Nat) (hr : 0 < r)
    (hs : 0 < s)
    (hrl : BN_num_bytes r ≤ ecdsa_fixed_number_byte_size alg_id)
    (hsl : BN_num_bytes s ≤ ecdsa_fixed_number_byte_size alg_id) :
    ECDSA_SIG_to_fixed alg_id r s
      = EncodeResult.ok
          (padLeft (ecdsa_fixed_number_byte_size alg_id) (BN_bn2bin r)
            ++ padLeft (ecdsa_fixed_number_byte_size alg_id) (BN_bn2bin s)) := by
  have hN : ecdsa_fixed_number_byte_size alg_id ≤ 48 := by
    cases alg_id <;> simp [ecdsa_fixed_number_byte_size]
  have h1 := BIGNUM_to_be_bytes_pos r 48 hr (by omega)
  have h2 := BIGNUM_to_be_bytes_pos s 48 hs (by omega)
  have hMAX : MAX_ECDSA_FIXED_NUMBER_BYTE_SIZE = 48 := rfl
  simp only [ECDSA_SIG_to_fixed, hMAX, h1, h2]
  rw [if_pos (by rw [BN_bn2bin_length]; exact hrl)]
  rw [fill_pad _ _ _ (by rw [BN_bn2bin_length]; exact hrl)
    (by rw [BN_bn2bin_length]; exact hsl)]

theorem padLeft_length (N : Nat) (l : List Nat) (h : l.length ≤ N) :
    (padLeft N l).length = N := by
  simp [padLeft]
  omega

theorem from_fixed_pad (alg_id : Ec.AlgorithmID) (r s : Nat)
    (hrl : BN_num_bytes r ≤ ecdsa_fixed_number_byte_size alg_id)
    (hsl : BN_num_bytes s ≤ ecdsa_fixed_number_byte_size alg_id) :
    ECDSA_SIG_from_fixed alg_id
      (padLeft (ecdsa_fixed_number_byte_size alg_id) (BN_bn2bin r)
        ++ padLeft (ecdsa_fixed_number_byte_size alg_id) (BN_bn2bin s))
      = .ok (r, s) := by
  have hrlen : (padLeft (ecdsa_fixed_number_byte_size alg_id) (BN_bn2bin r)).length
      = ecdsa_fixed_number_byte_size alg_id :=
    padLeft_length _ _ (by rw [BN_bn2bin_length]; exact hrl)
  have hslen : (padLeft (ecdsa_fixed_number_byte_size alg_id) (BN_bn2bin s)).length
      = ecdsa_fixed_number_byte_size alg_id :=
    padLeft_length _ _ (by rw [BN_bn2bin_length]; exact hsl)
  rw [ECDSA_SIG_from_fixed]
  rw [if_neg (by simp [List.length_append, hrlen, hslen]; omega)]
  rw [List.take_left' hrlen, List.drop_left' hrlen]
  rw [BIGNUM_from_be_bytes, BIGNUM_from_be_bytes, padLeft, padLeft,
    BN_bin2bn_replicate_zero, BN_bin2bn_replicate_zero, BN_bin2bn_bn2bin,
    BN_bin2bn_bn2bin]

theorem sigDecode_error_imp (C : Ec.Collab) (alg : Ec.EcdsaVerificationAlgorithm)
    (signature : List Nat) (e : CryptoError)
    (h : sigDecode C alg signature = .error e) : e = CryptoError.unspecified := by
  cases hf : alg.sig_format
  case ASN1 =>
    simp only [sigDecode, hf] at h
    cases hc : C.ECDSA_SIG_from_bytes signature <;>
      simp [ECDSA_SIG_from_asn1, ofOption, hc] at h
    exact h.symm
  case Fixed =>
    simp only [sigDecode, hf, ECDSA_SIG_from_fixed] at h
    split at h
    · exact (Except.error.injEq _ _).mp h |>.symm
    · exact absurd h (by simp)

/-- Claim C2: the destructor of each AES key container overwrites every byte
of the key array with zero: the post-drop state of an `Aes128Key` is 16 zero
bytes and that of an `Aes256Key` is 32 zero bytes, whatever the keys held. -/
theorem aes_key_drop_zeroizes (k : Aes128Key) (k2 : Aes256Key) :
    (Aes128Key.drop k).bytes = List.replicate 16 0 ∧
    (Aes256Key.drop k2).bytes = List.replicate 32 0 := by
  constructor
  · show zeroize k.bytes = _
    rw [zeroize, List.map_const', k.length_eq]
  · show zeroize k2.bytes = _
    rw [zeroize, List.map_const', k2.length_eq]

/-- Claim C3 (counterexample): the round-trip fails for `(r, s) = (0, 1)` on
P-256, although both minimal encodings (0 bytes and 1 byte) fit in
`N = 32` bytes — encoding a zero bignum is rejected by
`BIGNUM_to_be_bytes`. -/
theorem fixed_roundtrip_zero_counterexample :
    BN_num_bytes 0 ≤ 32 ∧ BN_num_bytes 1 ≤ 32 ∧
    fixed_roundtrip Ec.AlgorithmID.ECDSA_P256 0 1 ≠ some (0, 1) := by
  decide

/-- Claim C3 (amended): for every `(r, s)` pair of positive integers whose
minimal big-endian encodings each fit in `N` bytes, decoding the fixed-format
encoding produced from `(r, s)` yields back exactly `(r, s)`. -/
theorem fixed_roundtrip_of_pos (alg_id : Ec.AlgorithmID) (r s : Nat)
    (hr : 0 < r) (hs : 0 < s)
    (hrl : BN_num_bytes r ≤ ecdsa_fixed_number_byte_size alg_id)
    (hsl : BN_num_bytes s ≤ ecdsa_fixed_number_byte_size alg_id) :
    fixed_roundtrip alg_id r s = some (r, s) := by
  rw [fixed_roundtrip, to_fixed_eq_of_pos alg_id r s hr hs hrl hsl]
  simp [from_fixed_pad alg_id r s hrl hsl]

theorem fixed_roundtrip_of_pos_witness :
    0 < 5 ∧ 0 < 7 ∧
    BN_num_bytes 5 ≤ ecdsa_fixed_number_byte_size Ec.AlgorithmID.ECDSA_P256 ∧
    BN_num_bytes 7 ≤ ecdsa_fixed_number_byte_size Ec.AlgorithmID.ECDSA_P256 ∧
    fixed_roundtrip Ec.AlgorithmID.ECDSA_P256 5 7 = some (5, 7) :=
  ⟨by decide, by decide, by decide, by decide,
    fixed_roundtrip_of_pos Ec.AlgorithmID.ECDSA_P256 5 7 (by decide) (by decide)
      (by decide) (by decide)⟩

/-- Claim C4 (counterexample): for `(r, s) = (1, 0)` on P-256 both components
fit in `N = 32` bytes, yet the encoder returns an error instead of a 64-byte
output, because a zero bignum fails `BIGNUM_to_be_bytes`. -/
theorem to_fixed_zero_counterexample :
    BN_num_bytes 1 ≤ 32 ∧ BN_num_bytes 0 ≤ 32 ∧
    ECDSA_SIG_to_fixed Ec.AlgorithmID.ECDSA_P256 1 0 = EncodeResult.err := by
  decide

/-- Claim C4 (amended): for every signature whose `r` and `s` are positive
and fit in `N` bytes, the fixed-format output is exactly `2N` bytes: `r`
big-endian left-zero-padded to width `N`, then `s` likewise. -/
theorem to_fixed_layout_of_pos (alg_id : Ec.AlgorithmID) (r s : Nat)
    (hr : 0 < r) (hs : 0 < s)
    (hrl : BN_num_bytes r ≤ ecdsa_fixed_number_byte_size alg_id)
    (hsl : BN_num_bytes s ≤ ecdsa_fixed_number_byte_size alg_id) :
    ECDSA_SIG_to_fixed alg_id r s
      = EncodeResult.ok
          (padLeft (ecdsa_fixed_number_byte_size alg_id) (BN_bn2bin r)
            ++ padLeft (ecdsa_fixed_number_byte_size alg_id) (BN_bn2bin s)) ∧
    (padLeft (ecdsa_fixed_number_byte_size alg_id) (BN_bn2bin r)
      ++ padLeft (ecdsa_fixed_number_byte_size alg_id) (BN_bn2bin s)).length
      = 2 * ecdsa_fixed_number_byte_size alg_id := by
  refine ⟨to_fixed_eq_of_pos alg_id r s hr hs hrl hsl, ?_⟩
  rw [List.length_append,
    padLeft_length _ _ (by rw [BN_bn2bin_length]; exact hrl),
    padLeft_length _ _ (by rw [BN_bn2bin_length]; exact hsl)]
  omega

theorem to_fixed_layout_of_pos_witness :
    0 < 3 ∧ 0 < 4 ∧
    BN_num_bytes 3 ≤ ecdsa_fixed_number_byte_size Ec.AlgorithmID.ECDSA_P384 ∧
    BN_num_bytes 4 ≤ ecdsa_fixed_number_byte_size Ec.AlgorithmID.ECDSA_P384 ∧
    (ECDSA_SIG_to_fixed Ec.AlgorithmID.ECDSA_P384 3 4
      = EncodeResult.ok (padLeft 48 (BN_bn2bin 3) ++ padLeft 48 (BN_bn2bin 4)) ∧
    (padLeft 48 (BN_bn2bin 3) ++ padLeft 48 (BN_bn2bin 4)).length = 2 * 48) :=
  ⟨by decide, by decide, by decide, by decide,
    to_fixed_layout_of_pos Ec.AlgorithmID.ECDSA_P384 3 4 (by decide) (by decide)
      (by decide) (by decide)⟩

/-- Claim C5: fixed-format decoding rejects every input whose length differs
from `2N` with the undifferentiated `Unspecified` error. -/
theorem from_fixed_rejects_bad_length (alg_id : Ec.AlgorithmID)
    (signature : List Nat)
    (h : signature.length ≠ 2 * ecdsa_fixed_number_byte_size alg_id) :
    ECDSA_SIG_from_fixed alg_id signature = .error CryptoError.unspecified := by
  simp [ECDSA_SIG_from_fixed, h]

theorem from_fixed_rejects_bad_length_witness :
    (List.replicate 63 0).length ≠ 2 * ecdsa_fixed_number_byte_size Ec.AlgorithmID.ECDSA_P256 ∧
    ECDSA_SIG_from_fixed Ec.AlgorithmID.ECDSA_P256 (List.replicate 63 0)
      = .error CryptoError.unspecified ∧
    (List.replicate 65 0).length ≠ 2 * ecdsa_fixed_number_byte_size Ec.AlgorithmID.ECDSA_P256 ∧
    ECDSA_SIG_from_fixed Ec.AlgorithmID.ECDSA_P256 (List.replicate 65 0)
      = .error CryptoError.unspecified :=
  ⟨by decide, from_fixed_rejects_bad_length _ _ (by decide),
    by decide, from_fixed_rejects_bad_length _ _ (by decide)⟩

/-- Claim C6 (code evaluated at the failing input): on P-256, an `r` whose
minimal encoding is 33 bytes (within the 48-byte scratch buffer but over
`N = 32`) makes the fill closure's `expected_number_size - r_bytes`
subtraction underflow, a panic rather than an error return; and an oversized
`s` is not reported as an error either (the closure silently writes `s` over
part of the `r` region and "succeeds"). -/
theorem to_fixed_panics_on_oversized_r :
    ECDSA_SIG_to_fixed Ec.AlgorithmID.ECDSA_P256 (2 ^ 256) 1 = EncodeResult.panics ∧
    BN_num_bytes (2 ^ 256) ≤ MAX_ECDSA_FIXED_NUMBER_BYTE_SIZE ∧
    ECDSA_SIG_to_fixed Ec.AlgorithmID.ECDSA_P256 1 (2 ^ 256) ≠ EncodeResult.err := by
  decide

/-- Claim C7 (counterexample): a bignum of value zero has a 0-byte minimal
representation, which fits in a 48-byte buffer, yet `BIGNUM_to_be_bytes`
fails on it (the `bn_bytes == 0` check fires). -/
theorem to_be_bytes_zero_counterexample :
    BN_num_bytes 0 ≤ 48 ∧
    BIGNUM_to_be_bytes 0 48 = .error CryptoError.unspecified :=
  ⟨by decide, rfl⟩

/-- Claim C7 (amended): `BIGNUM_to_be_bytes` fails exactly when the bignum's
minimal big-endian representation does not fit in the supplied buffer or the
bignum is zero. -/
theorem to_be_bytes_error_iff (n buf : Nat) :
    BIGNUM_to_be_bytes n buf = .error CryptoError.unspecified
      ↔ n = 0 ∨ buf < BN_num_bytes n := by
  by_cases h1 : BN_num_bytes n > buf
  · simp [BIGNUM_to_be_bytes, h1]
  · by_cases h2 : (BN_bn2bin n).length = 0
    · have hn0 : n = 0 :=
        (BN_num_bytes_eq_zero_iff n).mp (by rw [← BN_bn2bin_length]; exact h2)
      simp [BIGNUM_to_be_bytes, h1, h2]
      exact hn0
    · simp [BIGNUM_to_be_bytes, h1, h2]
      intro hn0
      exact h2 (by rw [BN_bn2bin_length, hn0]; rfl)

/-- Claim C10: fixed-format decoding performs no numeric validation: every
input of length exactly `2N` decodes successfully into the big-endian values
of its two halves, whatever those values are. -/
theorem from_fixed_no_numeric_validation (alg_id : Ec.AlgorithmID)
    (signature : List Nat)
    (h : signature.length = 2 * ecdsa_fixed_number_byte_size alg_id) :
    ECDSA_SIG_from_fixed alg_id signature
      = .ok (BN_bin2bn (signature.take (ecdsa_fixed_number_byte_size alg_id)),
          BN_bin2bn (signature.drop (ecdsa_fixed_number_byte_size alg_id))) := by
  simp [ECDSA_SIG_from_fixed, BIGNUM_from_be_bytes, h]

theorem from_fixed_no_numeric_validation_witness :
    (List.replicate 64 0).length = 2 * ecdsa_fixed_number_byte_size Ec.AlgorithmID.ECDSA_P256 ∧
    ECDSA_SIG_from_fixed Ec.AlgorithmID.ECDSA_P256 (List.replicate 64 0) = .ok (0, 0) ∧
    ECDSA_SIG_from_fixed Ec.AlgorithmID.ECDSA_P256 (List.replicate 64 255)
      = .ok (2 ^ 256 - 1, 2 ^ 256 - 1) := by
  refine ⟨by decide, ?_, ?_⟩
  · rw [from_fixed_no_numeric_validation _ _ (by decide)]
    exact congrArg Except.ok (by decide)
  · rw [from_fixed_no_numeric_validation _ _ (by decide)]
    exact congrArg Except.ok (by decide)

/-- Claim C1: `verify` succeeds if and only if every step succeeds — curve
group lookup and public-key point decode and key binding, signature decode
per the algorithm's declared format, and the raw verify primitive returning
1 on the computed digest (the digest step is total and cannot fail) — and
any failing run surfaces as the single undifferentiated `Unspecified`
error. -/
theorem verify_rejects_uniformly (C : Ec.Collab)
    (alg : Ec.EcdsaVerificationAlgorithm) (public_key msg signature : List Nat) :
    (verify C alg public_key msg signature = .ok () ↔
      ∃ g pt k rs,
        C.EC_GROUP_new_by_curve_name alg.nid = some g ∧
        C.EC_POINT_oct2point g public_key = some pt ∧
        C.EC_KEY_set_public g pt = some k ∧
        sigDecode C alg signature = .ok rs ∧
        C.ECDSA_do_verify (C.digest alg.digest msg) rs k = 1) ∧
    (verify C alg public_key msg signature = .ok () ∨
      verify C alg public_key msg signature = .error CryptoError.unspecified) := by
  cases hg : C.EC_GROUP_new_by_curve_name alg.nid with
  | none =>
    refine ⟨?_, Or.inr ?_⟩ <;>
      simp [verify, EC_GROUP_from_nid, ofOption, hg]
  | some g =>
    cases hp : C.EC_POINT_oct2point g public_key with
    | none =>
      refine ⟨?_, Or.inr ?_⟩ <;>
        simp [verify, EC_GROUP_from_nid, EC_POINT_from_bytes, ofOption, hg, hp]
    | some pt =>
      cases hk : C.EC_KEY_set_public g pt with
      | none =>
        refine ⟨?_, Or.inr ?_⟩ <;>
          simp [verify, EC_GROUP_from_nid, EC_POINT_from_bytes,
            EC_KEY_from_public_point, ofOption, hg, hp, hk]
      | some k =>
        cases hs : sigDecode C alg signature with
        | error e =>
          have he := sigDecode_error_imp C alg signature e hs
          subst he
          refine ⟨?_, Or.inr ?_⟩ <;>
            simp [verify, EC_GROUP_from_nid, EC_POINT_from_bytes,
              EC_KEY_from_public_point, ofOption, hg, hp, hk, hs]
        | ok rs =>
          by_cases hv : C.ECDSA_do_verify (C.digest alg.digest msg) rs k = 1
          · refine ⟨?_, Or.inl ?_⟩ <;>
              simp [verify, EC_GROUP_from_nid, EC_POINT_from_bytes,
                EC_KEY_from_public_point, ofOption, hg, hp, hk, hs, hv]
          · refine ⟨?_, Or.inr ?_⟩ <;>
              simp [verify, EC_GROUP_from_nid, EC_POINT_from_bytes,
                EC_KEY_from_public_point, ofOption, hg, hp, hk, hs, hv]

/-- Claim C8: for every constructed header-protection key, `new_mask` errors
on every sample whose length is not 16 bytes, returns a 5-byte mask on every
16-byte sample, and the declared sample length of every algorithm is 16. -/
theorem new_mask_sample_contract (k : Quic.HeaderProtectionKey)
    (sample : List Nat) :
    (sample.length ≠ 16 →
      Quic.HeaderProtectionKey.new_mask k sample = .error CryptoError.unspecified) ∧
    (sample.length = 16 →
      ∃ m, Quic.HeaderProtectionKey.new_mask k sample = .ok m ∧ m.length = 5) ∧
    Quic.Algorithm.sample_len k.algorithm = 16 := by
  refine ⟨?_, ?_, rfl⟩
  · intro h
    rw [Quic.HeaderProtectionKey.new_mask,
      dif_neg (by simpa [Quic.SAMPLE_LEN, Quic.TAG_LEN] using h)]
  · intro h
    have h16 : sample.length = Quic.SAMPLE_LEN := by
      simpa [Quic.SAMPLE_LEN, Quic.TAG_LEN] using h
    rw [Quic.HeaderProtectionKey.new_mask, dif_pos h16]
    exact ⟨_, rfl, (k.algorithm.new_mask k.inner ⟨sample, h16⟩).property⟩

theorem new_mask_sample_contract_witness :
    Quic.HeaderProtectionKey.new_mask testQuicKey (List.replicate 15 0)
      = .error CryptoError.unspecified ∧
    ∃ m, Quic.HeaderProtectionKey.new_mask testQuicKey (List.replicate 16 0)
      = .ok m ∧ m.length = 5 :=
  ⟨(new_mask_sample_contract testQuicKey (List.replicate 15 0)).1 (by decide),
    (new_mask_sample_contract testQuicKey (List.replicate 16 0)).2.1 (by decide)⟩

/-- Claim C9: equality of QUIC algorithm descriptors compares only the
identity tag: two descriptors compare equal exactly when their `id` fields
coincide, whatever their key lengths and function fields. -/
theorem algorithm_eq_iff_id (a b : Quic.Algorithm) :
    (a == b) = true ↔ a.id = b.id := by
  show (a.id == b.id) = true ↔ a.id = b.id
  exact beq_iff_eq
